import Mathlib

/-!
Verification of `src/hotspot/share/jfr/periodic/jfrFinalizerEvent.cpp`.

The file under study turns the runtime's finalizer-tracking table into JFR
`EventFinalizer` diagnostic events, through two entry points:
`JfrFinalizerEvent::send_unload_event` (one event for a type being unloaded)
and `JfrFinalizerEvent::generate_events` (one event per tracked entry, all
sharing the timestamp captured when the traversal closure is constructed).

The embedding below models heap references (`oop`) as `Option`-valued fields,
machine time (`JfrTicks`) as a natural-number clock in an explicit state, and
the event sink as the list of committed events.  Collaborators that live
outside the studied source (`FinalizerTable`, `JfrSymbolTable`, `JfrTicks`)
are modelled from the specification and marked as such in their doc comments.
-/

namespace JfrFinalizer

/-- A `java.security.CodeSource` object: its `locationNoFragString` field is a
`java.lang.String` oop that may be null. -/
structure CodeSource where
  locationNoFragString : Option String
deriving DecidableEq

/-- A `java.security.ProtectionDomain` object: its `codesource` field is a
`CodeSource` oop that may be null.  A failed reflective field read through
`JfrJavaSupport::get_field` also surfaces as a null result, so `none` covers
both "field holds null" and "field read yielded no value". -/
structure ProtectionDomain where
  codesource : Option CodeSource
deriving DecidableEq

/-- The `java.lang.Class` mirror of a klass, carrying the protection-domain
oop read by `java_lang_Class::protection_domain`. -/
structure JavaMirror where
  protection_domain : Option ProtectionDomain
deriving DecidableEq

/-- An `InstanceKlass`: a type descriptor with a name (identity), its
`has_finalizer` flag, and its `java_mirror`. -/
structure InstanceKlass where
  name : String
  has_finalizer : Bool
  java_mirror : JavaMirror
deriving DecidableEq

/-- `get_codesource(pd, thread)`: reads the `codesource` field
(`Ljava/security/CodeSource;`) from a non-null protection-domain oop. -/
def get_codesource (pd : ProtectionDomain) : Option CodeSource :=
  pd.codesource

/-- `get_locationNoFragString(codesource, thread)`: reads the
`locationNoFragString` field (`Ljava/lang/String;`) from a non-null
code-source oop, converting the string oop to a C string when non-null and
returning null otherwise. -/
def get_locationNoFragString (cs : CodeSource) : Option String :=
  match cs.locationNoFragString with
  | some string_oop => some string_oop
  | none => none

/-- `codesource(ik, thread)`: the provenance resolver.  Reads the type's
protection domain from its mirror; if null, returns null.  Otherwise reads
the code-source oop; if null, returns null.  Otherwise returns the
fragment-stripped location string (which may itself be null). -/
def codesource (ik : InstanceKlass) : Option String :=
  match ik.java_mirror.protection_domain with
  | none => none
  | some pd =>
    match get_codesource pd with
    | some cs => get_locationNoFragString cs
    | none => none

/-- `JfrJavaSupport::c_str(string_oop, thread)` with its non-null entry
precondition made explicit: applying it to a null string oop is an assertion
failure, modelled as `Except.error`. -/
def c_str (string_oop : Option String) : Except String String :=
  match string_oop with
  | some s => Except.ok s
  | none => Except.error "assert failed: string oop is null"

/-- `get_codesource` with its entry assertion `pd != NULL` made explicit:
a null argument is an assertion failure, modelled as `Except.error`. -/
def get_codesourceE (pd : Option ProtectionDomain) : Except String (Option CodeSource) :=
  match pd with
  | none => Except.error "assert failed: pd != NULL"
  | some p => Except.ok p.codesource

/-- `get_locationNoFragString` with its entry assertion
`codesource != NULL` made explicit, and with the `c_str` conversion guarded
exactly as in the source: `string_oop != NULL ? c_str(string_oop) : NULL`. -/
def get_locationNoFragStringE (cs : Option CodeSource) : Except String (Option String) :=
  match cs with
  | none => Except.error "assert failed: codesource != NULL"
  | some c =>
    match c.locationNoFragString with
    | some string_oop => (c_str (some string_oop)).map some
    | none => Except.ok none

/-- The provenance resolver expressed over the assertion-tracking helpers:
each helper call site receives exactly the value the source passes it, so an
`Except.error` result would witness an assertion violation at some call
site. -/
def codesourceE (ik : InstanceKlass) : Except String (Option String) :=
  match ik.java_mirror.protection_domain with
  | none => Except.ok none
  | some pd =>
    match get_codesourceE (some pd) with
    | Except.error e => Except.error e
    | Except.ok none => Except.ok none
    | Except.ok (some cs) => get_locationNoFragStringE (some cs)

/-- Modelled from the spec: a `FinalizerEntry` of the external
`FinalizerTable` (not part of the studied source) — a tracking entry holding
the type identity and the registered/enqueued/finalized counters. -/
structure FinalizerEntry where
  klass : InstanceKlass
  registered : Nat
  enqueued : Nat
  finalized : Nat
deriving DecidableEq

/-- A committed `EventFinalizer` record: end timestamp, overriding class,
interned code-source identifier (0 when no provenance), and the three
counters. -/
structure EventFinalizer where
  endtime : Nat
  overridingClass : InstanceKlass
  codeSource : Nat
  registered : Nat
  enqueued : Nat
  finalized : Nat
deriving DecidableEq

/-- The runtime state visible to this core: the external finalizer table
(a list of entries, iteration order = list order), the event sink (committed
events, in commit order), and the current reading of the `JfrTicks` clock.
Modelled from the spec where the collaborators are external: the table is
read-only for this core, the sink only ever receives appends, and the clock
is monotone (it only ever advances, see `tick`). -/
structure JfrState where
  table : List FinalizerEntry
  sink : List EventFinalizer
  clock : Nat
deriving DecidableEq

/-- Modelled from the spec: the passage of time between calls.  `JfrTicks`
is a monotone elapsed-tick counter, so between two observations the clock
advances by a non-negative delta `d`. -/
def tick (d : Nat) (s : JfrState) : JfrState :=
  { s with clock := s.clock + d }

/-- Modelled from the spec: `FinalizerTable::lookup(ik, thread)` — point
lookup of the tracking entry for a type, `none` when no entry is present. -/
def FinalizerTable.lookup (table : List FinalizerEntry) (ik : InstanceKlass) :
    Option FinalizerEntry :=
  table.find? (fun fe => decide (fe.klass = ik))

/-- The event constructed by `send_event`: stamped with the caller-supplied
timestamp, carrying the overriding class, the interned code-source id
(`JfrSymbolTable::add(url)` when the resolver produced a url, else the
sentinel 0), and the entry's counters (all zero when the entry is absent).
`add` is the interning function of the external `JfrSymbolTable`. -/
def builtEvent (fe : Option FinalizerEntry) (ik : InstanceKlass) (timestamp : Nat)
    (add : String → Nat) : EventFinalizer :=
  let url := codesource ik
  let codesource_symbol_id : Nat :=
    match url with
    | some u => add u
    | none => 0
  match fe with
  | none =>
    { endtime := timestamp, overridingClass := ik, codeSource := codesource_symbol_id,
      registered := 0, enqueued := 0, finalized := 0 }
  | some f =>
    { endtime := timestamp, overridingClass := ik, codeSource := codesource_symbol_id,
      registered := f.registered, enqueued := f.enqueued, finalized := f.finalized }

/-- `send_event(fe, ik, timestamp, thread)`: builds the event and commits it
to the sink.  The table field of the state is untouched — the source only
reads `fe`.  The clock advances across the commit (provenance resolution and
emission take time; `JfrTicks` is monotone), which the emitted event does not
observe: it carries the caller-supplied `timestamp`. -/
def send_event (fe : Option FinalizerEntry) (ik : InstanceKlass) (timestamp : Nat)
    (add : String → Nat) (s : JfrState) : JfrState :=
  { s with sink := s.sink ++ [builtEvent fe ik timestamp add], clock := s.clock + 1 }

/-- Modelled from the spec: `FinalizerTable::do_entries` traversal —
the callback receives one entry at a time and its boolean result signals
"continue iterating".  The entry list is the snapshot held stable by the
structural lock for the duration of the traversal. -/
def FinalizerTable.do_entries_from (entries : List FinalizerEntry)
    (closure : FinalizerEntry → JfrState → Bool × JfrState) (s : JfrState) : JfrState :=
  match entries with
  | [] => s
  | fe :: rest =>
    let r := closure fe s
    if r.1 then FinalizerTable.do_entries_from rest closure r.2 else r.2

/-- Modelled from the spec: `FinalizerTable::do_entries(closure, thread)`
applies the closure to every entry currently in the table. -/
def FinalizerTable.do_entries (closure : FinalizerEntry → JfrState → Bool × JfrState)
    (s : JfrState) : JfrState :=
  FinalizerTable.do_entries_from s.table closure s

/-- `FinalizerEventClosure::do_entry(fe)`: sends one event for the entry,
stamped with the timestamp `_timestamp` captured at closure construction,
and returns `true` to continue the traversal. -/
def FinalizerEventClosure.do_entry (timestamp : Nat) (add : String → Nat)
    (fe : FinalizerEntry) (s : JfrState) : Bool × JfrState :=
  (true, send_event (some fe) fe.klass timestamp add s)

/-- `JfrFinalizerEvent::send_unload_event(ik)`: one lookup at call time, one
event stamped with the current instant. -/
def JfrFinalizerEvent.send_unload_event (ik : InstanceKlass) (add : String → Nat)
    (s : JfrState) : JfrState :=
  send_event (FinalizerTable.lookup s.table ik) ik s.clock add s

/-- `JfrFinalizerEvent::generate_events()`: constructs the closure (capturing
`JfrTicks::now()` once, before iterating), then traverses the whole table
under the structural lock. -/
def JfrFinalizerEvent.generate_events (add : String → Nat) (s : JfrState) : JfrState :=
  let timestamp := s.clock
  FinalizerTable.do_entries (FinalizerEventClosure.do_entry timestamp add) s

/-- Traversing `entries` with the `FinalizerEventClosure` appends, in order,
one event per entry (each stamped with the captured timestamp `t`) and leaves
the table untouched; the clock advances once per commit. -/
theorem do_entries_from_sweep (t : Nat) (add : String → Nat) :
    ∀ (entries : List FinalizerEntry) (s : JfrState),
    FinalizerTable.do_entries_from entries (FinalizerEventClosure.do_entry t add) s =
      { table := s.table,
        sink := s.sink ++ entries.map (fun fe => builtEvent (some fe) fe.klass t add),
        clock := s.clock + entries.length } := by
  intro entries
  induction entries with
  | nil =>
    intro s
    simp [FinalizerTable.do_entries_from]
  | cons fe rest ih =>
    intro s
    simp only [FinalizerTable.do_entries_from, FinalizerEventClosure.do_entry, send_event,
      if_true, List.map_cons, List.length_cons, ih]
    simp only [JfrState.mk.injEq]
    refine ⟨trivial, ?_, ?_⟩
    · simp
    · omega

/-- The full sweep: the resulting state appends one event per table entry,
in table order, all stamped with the clock value captured at the start. -/
theorem generate_events_spec (add : String → Nat) (s : JfrState) :
    JfrFinalizerEvent.generate_events add s =
      { table := s.table,
        sink := s.sink ++ s.table.map (fun fe => builtEvent (some fe) fe.klass s.clock add),
        clock := s.clock + s.table.length } := by
  simp [JfrFinalizerEvent.generate_events, FinalizerTable.do_entries, do_entries_from_sweep]

/-! Concrete sample objects, used to exercise the theorems on explicit
inputs. `kA` has a fully resolvable provenance chain, `kB` has a null
protection domain, `kC` has no tracking entry in `s0`. -/

def csA : CodeSource := { locationNoFragString := some "file:/a.jar" }

def pdA : ProtectionDomain := { codesource := some csA }

def kA : InstanceKlass :=
  { name := "A", has_finalizer := true, java_mirror := { protection_domain := some pdA } }

def kB : InstanceKlass :=
  { name := "B", has_finalizer := true, java_mirror := { protection_domain := none } }

def kC : InstanceKlass :=
  { name := "C", has_finalizer := true, java_mirror := { protection_domain := some pdA } }

def feA : FinalizerEntry := { klass := kA, registered := 5, enqueued := 3, finalized := 2 }

def feB : FinalizerEntry := { klass := kB, registered := 4, enqueued := 2, finalized := 1 }

def addSeven : String → Nat := fun _ => 7

def s0 : JfrState := { table := [feA, feB], sink := [], clock := 10 }

def sE : JfrState := { table := [], sink := [], clock := 3 }

/-- C1: a sweep over a table holding N entries commits exactly N events —
the sink grows by exactly the per-entry events, in table order — and every
committed event carries the single timestamp captured before iterating (the
clock reading at call time) together with the registered/enqueued/finalized
counters of its respective entry as read during the traversal. -/
theorem sweep_emits_one_event_per_entry (add : String → Nat) (s : JfrState) :
    ((JfrFinalizerEvent.generate_events add s).sink).length =
      s.sink.length + s.table.length ∧
    (JfrFinalizerEvent.generate_events add s).sink =
      s.sink ++ s.table.map (fun fe => builtEvent (some fe) fe.klass s.clock add) ∧
    ∀ fe : FinalizerEntry,
      (builtEvent (some fe) fe.klass s.clock add).endtime = s.clock ∧
      (builtEvent (some fe) fe.klass s.clock add).registered = fe.registered ∧
      (builtEvent (some fe) fe.klass s.clock add).enqueued = fe.enqueued ∧
      (builtEvent (some fe) fe.klass s.clock add).finalized = fe.finalized := by
  refine ⟨?_, ?_, ?_⟩
  · rw [generate_events_spec]
    simp
  · rw [generate_events_spec]
  · intro fe
    exact ⟨rfl, rfl, rfl, rfl⟩

/-- C2: when the call-time lookup finds the tracking entry `fe`,
`send_unload_event` commits exactly one event, and that event's registered,
enqueued and finalized fields are exactly the entry's three counters. -/
theorem unload_event_carries_entry_counters (ik : InstanceKlass) (add : String → Nat)
    (s : JfrState) (fe : FinalizerEntry)
    (h : FinalizerTable.lookup s.table ik = some fe) :
    (JfrFinalizerEvent.send_unload_event ik add s).sink =
      s.sink ++ [builtEvent (some fe) ik s.clock add] ∧
    (builtEvent (some fe) ik s.clock add).registered = fe.registered ∧
    (builtEvent (some fe) ik s.clock add).enqueued = fe.enqueued ∧
    (builtEvent (some fe) ik s.clock add).finalized = fe.finalized := by
  unfold JfrFinalizerEvent.send_unload_event send_event
  rw [h]
  exact ⟨rfl, rfl, rfl, rfl⟩

/-- Witness for C2: the table of `s0` holds the entry `(5, 3, 2)` for `kA`,
and the unload event for `kA` carries exactly those three counters. -/
theorem unload_event_carries_entry_counters_witness :
    (JfrFinalizerEvent.send_unload_event kA addSeven s0).sink =
      [builtEvent (some feA) kA 10 addSeven] ∧
    (builtEvent (some feA) kA 10 addSeven).registered = 5 ∧
    (builtEvent (some feA) kA 10 addSeven).enqueued = 3 ∧
    (builtEvent (some feA) kA 10 addSeven).finalized = 2 :=
  unload_event_carries_entry_counters kA addSeven s0 feA (by decide)

/-- C3: when the call-time lookup finds no tracking entry,
`send_unload_event` still commits exactly one event, and that event's three
counters are all zero. -/
theorem unload_event_zero_counters_when_absent (ik : InstanceKlass)
    (add : String → Nat) (s : JfrState)
    (h : FinalizerTable.lookup s.table ik = none) :
    (JfrFinalizerEvent.send_unload_event ik add s).sink =
      s.sink ++ [builtEvent none ik s.clock add] ∧
    (builtEvent none ik s.clock add).registered = 0 ∧
    (builtEvent none ik s.clock add).enqueued = 0 ∧
    (builtEvent none ik s.clock add).finalized = 0 := by
  unfold JfrFinalizerEvent.send_unload_event send_event
  rw [h]
  exact ⟨rfl, rfl, rfl, rfl⟩

/-- Witness for C3: `kC` has no entry in `s0`; its unload event carries
all-zero counters. -/
theorem unload_event_zero_counters_when_absent_witness :
    (JfrFinalizerEvent.send_unload_event kC addSeven s0).sink =
      [builtEvent none kC 10 addSeven] ∧
    (builtEvent none kC 10 addSeven).registered = 0 ∧
    (builtEvent none kC 10 addSeven).enqueued = 0 ∧
    (builtEvent none kC 10 addSeven).finalized = 0 :=
  unload_event_zero_counters_when_absent kC addSeven s0 (by decide)

/-- Counterexample to C4: `kA` has no tracking entry in the empty-table
state `sE`, yet its unload event does not carry empty provenance — the
provenance chain of `kA` resolves, so the committed event's code-source
identifier is the interned id 7, not the 0 sentinel.  The entry-absence only
zeroes the three counters; it does not empty the provenance. -/
theorem unload_absent_entry_nonempty_provenance :
    FinalizerTable.lookup sE.table kA = none ∧
    (JfrFinalizerEvent.send_unload_event kA addSeven sE).sink =
      [builtEvent none kA 3 addSeven] ∧
    (builtEvent none kA 3 addSeven).registered = 0 ∧
    (builtEvent none kA 3 addSeven).enqueued = 0 ∧
    (builtEvent none kA 3 addSeven).finalized = 0 ∧
    (builtEvent none kA 3 addSeven).codeSource = 7 := by
  decide

/-- C4 amended: when no tracking entry is present, `send_unload_event`
commits exactly one event with all three counters zero; the event's
code-source field is computed from provenance resolution independently of
entry presence, and (given the symbol table never interns to the 0 sentinel)
it is 0 exactly when the resolver returns none. -/
theorem unload_absent_entry_zero_counters (ik : InstanceKlass)
    (add : String → Nat) (s : JfrState)
    (hadd : ∀ u, add u ≠ 0)
    (h : FinalizerTable.lookup s.table ik = none) :
    (JfrFinalizerEvent.send_unload_event ik add s).sink =
      s.sink ++ [builtEvent none ik s.clock add] ∧
    (builtEvent none ik s.clock add).registered = 0 ∧
    (builtEvent none ik s.clock add).enqueued = 0 ∧
    (builtEvent none ik s.clock add).finalized = 0 ∧
    ((builtEvent none ik s.clock add).codeSource = 0 ↔ codesource ik = none) := by
  refine ⟨?_, rfl, rfl, rfl, ?_⟩
  · unfold JfrFinalizerEvent.send_unload_event send_event
    rw [h]
  · cases hu : codesource ik with
    | none => simp [builtEvent, hu]
    | some u => simp [builtEvent, hu, hadd u]

/-- Witness for the amended C4: `kB` has no entry in `sE` and a null
protection domain, so its unload event has zero counters and the 0
code-source sentinel. -/
theorem unload_absent_entry_zero_counters_witness :
    (JfrFinalizerEvent.send_unload_event kB addSeven sE).sink =
      [builtEvent none kB 3 addSeven] ∧
    (builtEvent none kB 3 addSeven).registered = 0 ∧
    (builtEvent none kB 3 addSeven).enqueued = 0 ∧
    (builtEvent none kB 3 addSeven).finalized = 0 ∧
    ((builtEvent none kB 3 addSeven).codeSource = 0 ↔ codesource kB = none) :=
  unload_absent_entry_zero_counters kB addSeven sE (fun _ => Nat.succ_ne_zero 6) (by decide)

/-- C5: the provenance resolver returns none exactly when the chain breaks
at one of its three steps — null protection domain, null code source, or no
location-string value — and otherwise returns the location string. -/
theorem codesource_none_iff_chain_break (ik : InstanceKlass) :
    (codesource ik = none ↔
      ik.java_mirror.protection_domain = none ∨
      (∃ pd, ik.java_mirror.protection_domain = some pd ∧ get_codesource pd = none) ∨
      (∃ pd cs, ik.java_mirror.protection_domain = some pd ∧
        get_codesource pd = some cs ∧ get_locationNoFragString cs = none)) ∧
    ∀ pd cs loc, ik.java_mirror.protection_domain = some pd →
      get_codesource pd = some cs → get_locationNoFragString cs = some loc →
      codesource ik = some loc := by
  constructor
  · cases hpd : ik.java_mirror.protection_domain with
    | none => simp [codesource, hpd]
    | some pd =>
      cases hcs : get_codesource pd with
      | none => simp [codesource, hpd, hcs]
      | some cs =>
        cases hloc : get_locationNoFragString cs with
        | none => simp [codesource, hpd, hcs, hloc]
        | some loc => simp [codesource, hpd, hcs, hloc]
  · intro pd cs loc hpd hcs hloc
    simp [codesource, hpd, hcs, hloc]

/-- Witness for C5: `kA` resolves through its full chain to its location
string; `kB` breaks the chain at the first step and resolves to none. -/
theorem codesource_none_iff_chain_break_witness :
    codesource kA = some "file:/a.jar" ∧ codesource kB = none :=
  ⟨(codesource_none_iff_chain_break kA).2 pdA csA "file:/a.jar" rfl rfl rfl,
   (codesource_none_iff_chain_break kB).1.mpr (Or.inl rfl)⟩

/-- C6: the traversal closure always answers `true` (continue), a sweep
always commits one event per entry — none skipped — and an entry whose
provenance resolves to none still has its event committed, carrying the
empty-provenance sentinel 0 in its code-source field. -/
theorem sweep_tolerates_provenance_failure (t : Nat) (add : String → Nat)
    (fe : FinalizerEntry) (st : JfrState) (s : JfrState) :
    (FinalizerEventClosure.do_entry t add fe st).1 = true ∧
    ((JfrFinalizerEvent.generate_events add s).sink).length =
      s.sink.length + s.table.length ∧
    ∀ fe2 ∈ s.table, codesource fe2.klass = none →
      builtEvent (some fe2) fe2.klass s.clock add ∈
        (JfrFinalizerEvent.generate_events add s).sink ∧
      (builtEvent (some fe2) fe2.klass s.clock add).codeSource = 0 := by
  refine ⟨rfl, ?_, ?_⟩
  · rw [generate_events_spec]
    simp
  · intro fe2 hmem hnone
    constructor
    · rw [generate_events_spec]
      simp only [List.mem_append, List.mem_map]
      exact Or.inr ⟨fe2, hmem, rfl⟩
    · simp [builtEvent, hnone]

/-- Witness for C6: in `s0`, entry `feB` has a klass with unresolvable
provenance; its event is nonetheless present in the sweep's sink with
code source 0, the sweep commits 2 events for the 2 entries, and the
closure signals continue. -/
theorem sweep_tolerates_provenance_failure_witness :
    (FinalizerEventClosure.do_entry 10 addSeven feA s0).1 = true ∧
    ((JfrFinalizerEvent.generate_events addSeven s0).sink).length =
      s0.sink.length + s0.table.length ∧
    (builtEvent (some feB) feB.klass s0.clock addSeven ∈
        (JfrFinalizerEvent.generate_events addSeven s0).sink ∧
      (builtEvent (some feB) feB.klass s0.clock addSeven).codeSource = 0) := by
  have h := sweep_tolerates_provenance_failure 10 addSeven feA s0 s0
  exact ⟨h.1, h.2.1, h.2.2 feB (by decide) (by decide)⟩

/-- C7: emission is read-only with respect to the tracking table:
`send_event` leaves the table of the state untouched, and a full sweep
returns the table exactly as it found it — entry for entry, with type
identity and all three counters unchanged. -/
theorem sweep_reads_only (fe : Option FinalizerEntry) (ik : InstanceKlass)
    (t : Nat) (add : String → Nat) (s s2 : JfrState) :
    (send_event fe ik t add s2).table = s2.table ∧
    (JfrFinalizerEvent.generate_events add s).table = s.table := by
  refine ⟨rfl, ?_⟩
  rw [generate_events_spec]

/-- C10: the resolver evaluated over the assertion-tracking helpers never
hits an assertion failure — every call site of `get_codesource`,
`get_locationNoFragString` and `c_str` receives a non-null argument — and
its result agrees with the plain resolver, whose none results are exactly
the three guarded early returns. -/
theorem resolver_asserts_hold (ik : InstanceKlass) :
    codesourceE ik = Except.ok (codesource ik) := by
  cases hpd : ik.java_mirror.protection_domain with
  | none => simp [codesourceE, codesource, hpd]
  | some pd =>
    cases hcs : pd.codesource with
    | none =>
      simp [codesourceE, codesource, get_codesourceE, get_codesource, hpd, hcs]
    | some cs =>
      cases hloc : cs.locationNoFragString with
      | none =>
        simp [codesourceE, codesource, get_codesourceE, get_codesource,
          get_locationNoFragStringE, get_locationNoFragString, hpd, hcs, hloc]
      | some loc =>
        simp [codesourceE, codesource, get_codesourceE, get_codesource,
          get_locationNoFragStringE, get_locationNoFragString, c_str, hpd, hcs, hloc,
          Except.map]

/-- C8: across two consecutive completed sweeps — with the monotone clock
advancing by an arbitrary non-negative delta between them — every event
committed by the first sweep carries a timestamp less than or equal to the
timestamp carried by every event committed by the second sweep. -/
theorem consecutive_sweeps_timestamps_monotone (add1 add2 : String → Nat)
    (d : Nat) (s : JfrState) :
    ∀ ev1 ∈ ((JfrFinalizerEvent.generate_events add1 s).sink).drop s.sink.length,
    ∀ ev2 ∈ ((JfrFinalizerEvent.generate_events add2
        (tick d (JfrFinalizerEvent.generate_events add1 s))).sink).drop
        ((JfrFinalizerEvent.generate_events add1 s).sink).length,
      ev1.endtime ≤ ev2.endtime := by
  intro ev1 h1 ev2 h2
  rw [generate_events_spec add1 s] at h1 h2
  simp only [tick] at h2
  rw [generate_events_spec] at h2
  simp only [List.drop_left, List.mem_map] at h1 h2
  obtain ⟨fe1, hfe1, hev1⟩ := h1
  obtain ⟨fe2, hfe2, hev2⟩ := h2
  have he1 : ev1.endtime = s.clock := by
    rw [← hev1]
    rfl
  have he2 : ev2.endtime = s.clock + s.table.length + d := by
    rw [← hev2]
    rfl
  rw [he1, he2]
  omega

/-- Witness for C8: with `s0`, a sweep at clock 10 then a sweep after the
clock advanced to 15; the two events for `feA` carry timestamps 10 ≤ 15. -/
theorem consecutive_sweeps_timestamps_monotone_witness :
    (builtEvent (some feA) feA.klass 10 addSeven ∈
      ((JfrFinalizerEvent.generate_events addSeven s0).sink).drop s0.sink.length) ∧
    (builtEvent (some feA) feA.klass 15 addSeven ∈
      ((JfrFinalizerEvent.generate_events addSeven
        (tick 3 (JfrFinalizerEvent.generate_events addSeven s0))).sink).drop
        ((JfrFinalizerEvent.generate_events addSeven s0).sink).length) ∧
    (builtEvent (some feA) feA.klass 10 addSeven).endtime ≤
      (builtEvent (some feA) feA.klass 15 addSeven).endtime := by
  refine ⟨by decide, by decide, ?_⟩
  exact consecutive_sweeps_timestamps_monotone addSeven addSeven 3 s0
    (builtEvent (some feA) feA.klass 10 addSeven) (by decide)
    (builtEvent (some feA) feA.klass 15 addSeven) (by decide)

/-- C9: when every tracking entry the emitter can read satisfies
finalized ≤ enqueued ≤ registered, every event committed by the unload path
and every event committed by the sweep path satisfies
finalized ≤ enqueued ≤ registered — the absent-entry case trivially, with
its all-zero counters. -/
theorem committed_counters_respect_invariant (add : String → Nat) (s : JfrState)
    (ik : InstanceKlass)
    (h : ∀ fe ∈ s.table, fe.finalized ≤ fe.enqueued ∧ fe.enqueued ≤ fe.registered) :
    (∀ ev ∈ ((JfrFinalizerEvent.send_unload_event ik add s).sink).drop s.sink.length,
      ev.finalized ≤ ev.enqueued ∧ ev.enqueued ≤ ev.registered) ∧
    (∀ ev ∈ ((JfrFinalizerEvent.generate_events add s).sink).drop s.sink.length,
      ev.finalized ≤ ev.enqueued ∧ ev.enqueued ≤ ev.registered) := by
  constructor
  · intro ev hev
    have hev2 : ev ∈ (s.sink ++
        [builtEvent (FinalizerTable.lookup s.table ik) ik s.clock add]).drop
        s.sink.length := hev
    rw [List.drop_left] at hev2
    rw [List.mem_singleton] at hev2
    subst hev2
    cases hlk : FinalizerTable.lookup s.table ik with
    | none =>
      exact ⟨Nat.le_refl 0, Nat.le_refl 0⟩
    | some fe =>
      have hmem : fe ∈ s.table := List.mem_of_find?_eq_some hlk
      exact h fe hmem
  · intro ev hev
    rw [generate_events_spec] at hev
    simp only [List.drop_left, List.mem_map] at hev
    obtain ⟨fe, hfe, hev2⟩ := hev
    subst hev2
    exact h fe hfe

/-- Witness for C9: in `s0` every entry satisfies the counter invariant, and
the unload event for `kA` satisfies 2 ≤ 3 ∧ 3 ≤ 5. -/
theorem committed_counters_respect_invariant_witness :
    (builtEvent (some feA) kA 10 addSeven).finalized ≤
      (builtEvent (some feA) kA 10 addSeven).enqueued ∧
    (builtEvent (some feA) kA 10 addSeven).enqueued ≤
      (builtEvent (some feA) kA 10 addSeven).registered := by
  have h := committed_counters_respect_invariant addSeven s0 kA (by decide)
  exact h.1 (builtEvent (some feA) kA 10 addSeven) (by decide)

end JfrFinalizer
